import Mathlib

/-!
# Verification of the multi-step input runner (`src/client/common/utils/multiStepInput.ts`)

This file gives a shallow embedding of the `MultiStepInput` class and proves
properties of its navigation loop (`stepThrough`), its prompt-replacement
discipline (`showQuickPick` / `showInputBox`), the per-keystroke validation
race handling and the accept handler of `showInputBox`.

Conventions of the embedding:

* A step (`InputStep<S>`) is identified by a value of an index type `ι`; the
  behaviour of the steps of a run is an environment `Env ι σ ε` mapping a step
  identity and the current shared state to what the invocation does: how many
  prompts it shows (each call of `showQuickPick`/`showInputBox` replaces the
  active prompt), the updated shared state, and how it finishes — a normal
  return of the next step (`InputStep | void`), a raised `InputFlowAction`
  signal, or any other thrown error of type `ε`.
* The runner's instance state (`MSI`) carries the `steps` stack (head of the
  list is the top of the JavaScript array), the active prompt `current`
  (prompts are numbered in order of creation), a log of prompt events
  (show / dispose / busy-marking) and the trace of step invocations.
* `stepThrough` is modelled by `runLoop`, a fuel-indexed recursion; fuel
  exhaustion is reported as a separate outcome so that every theorem speaks
  about runs the JavaScript loop actually performs.
-/

namespace MultiStep

/-- The three `InputFlowAction` control signals (`InputFlowAction.back`,
`InputFlowAction.cancel`, `InputFlowAction.resume`). -/
inductive Signal where
  | back
  | cancel
  | resume
  deriving DecidableEq, Repr

/-- How a step invocation finishes: a normal return of
`InputStep<S> | void` (`ret`), a raised control signal (`raise`), or any
other thrown error (`fail`). -/
inductive StepRet (ι ε : Type) where
  | ret : Option ι → StepRet ι ε
  | raise : Signal → StepRet ι ε
  | fail : ε → StepRet ι ε
  deriving DecidableEq, Repr

/-- The observable behaviour of one step invocation: the number of prompts the
step shows (calls of `showQuickPick` / `showInputBox`, each replacing the
active prompt), the shared state after the invocation (the step mutates the
state object in place), and how the invocation finishes. -/
structure StepAct (ι σ ε : Type) where
  prompts : Nat
  state : σ
  ret : StepRet ι ε
  deriving DecidableEq, Repr

/-- A step environment: the behaviour of every step of a run as a function of
the step's identity and the current shared state. -/
def Env (ι σ ε : Type) : Type := ι → σ → StepAct ι σ ε

/-- Events on prompt objects, recorded in creation/disposal order.
`busyEvt p` records `this.current.enabled = false; this.current.busy = true`
executed by `stepThrough` before invoking a step. -/
inductive PromptEvent where
  | showEvt : Nat → PromptEvent
  | disposeEvt : Nat → PromptEvent
  | busyEvt : Nat → PromptEvent
  deriving DecidableEq, Repr

/-- The mutable instance state of `MultiStepInput<S>`: the `steps` stack
(head = top of the JavaScript array), the active prompt `this.current`
(identified by its creation number), the next fresh prompt number, the log of
prompt events, and the trace of step invocations (earliest first). -/
structure MSI (ι : Type) where
  steps : List ι
  current : Option Nat
  nextPromptId : Nat
  events : List PromptEvent
  trace : List ι
  deriving DecidableEq, Repr

/-- A freshly constructed `MultiStepInput`: empty stack, no active prompt. -/
def MSI.new {ι : Type} : MSI ι := ⟨[], none, 0, [], []⟩

/-- Embeds lines 142–146 of `showQuickPick` and lines 207–211 of
`showInputBox`: `if (this.current) { this.current.dispose(); }
this.current = input; this.current.show();` — the previous active prompt, if
any, is disposed, then the new prompt becomes current and is shown. -/
def showOne {ι : Type} (m : MSI ι) : MSI ι :=
  { m with
    events := m.events ++
      (match m.current with
       | some p => [PromptEvent.disposeEvt p]
       | none => []) ++ [PromptEvent.showEvt m.nextPromptId]
    current := some m.nextPromptId
    nextPromptId := m.nextPromptId + 1 }

/-- Iterated prompt replacement: a step calling `show…` `n` times. -/
def showN {ι : Type} : Nat → MSI ι → MSI ι
  | 0, m => m
  | n + 1, m => showN n (showOne m)

/-- The result of one iteration of the `while (step)` loop of `stepThrough`:
the next value of the `step` variable, the shared state, the instance state,
and the error being rethrown when the step failed with a non-signal error. -/
structure IterResult (ι σ ε : Type) where
  next : Option ι
  state : σ
  msi : MSI ι
  thrown : Option ε
  deriving DecidableEq, Repr

/-- Lines 221–225 of `stepThrough`: `this.steps.push(step)` and, when a
prompt is active, `this.current.enabled = false; this.current.busy = true`;
the invocation of `step` is also recorded in the trace. -/
def pushBusy {ι : Type} (i : ι) (m : MSI ι) : MSI ι :=
  { m with
    steps := i :: m.steps
    trace := m.trace ++ [i]
    events := m.events ++
      (match m.current with
       | some p => [PromptEvent.busyEvt p]
       | none => []) }

/-- One iteration of the loop body of `stepThrough` (lines 220–239), invoking
step `i`: push `i` on the stack, mark the active prompt disabled/busy, run the
step (showing its prompts and updating the state), then dispatch on how it
finished: normal return sets `step` to the returned value; `back` pops the
stack twice (discarding `i`, then taking the prior step); `resume` pops once;
`cancel` clears `step`; any other error is rethrown. -/
def iterate {ι σ ε : Type} (env : Env ι σ ε) (i : ι) (s : σ) (m : MSI ι) :
    IterResult ι σ ε :=
  let a := env i s
  let m1 := showN a.prompts (pushBusy i m)
  match a.ret with
  | StepRet.ret next => ⟨next, a.state, m1, none⟩
  | StepRet.raise Signal.back =>
      ⟨m1.steps.tail.head?, a.state, { m1 with steps := m1.steps.tail.tail }, none⟩
  | StepRet.raise Signal.resume =>
      ⟨m1.steps.head?, a.state, { m1 with steps := m1.steps.tail }, none⟩
  | StepRet.raise Signal.cancel => ⟨none, a.state, m1, none⟩
  | StepRet.fail e => ⟨none, a.state, m1, some e⟩

/-- Lines 241–243 of `stepThrough`: after the loop exits normally,
`if (this.current) { this.current.dispose(); }`. The `current` field itself
is not cleared by the source. -/
def finishNormal {ι : Type} (m : MSI ι) : MSI ι :=
  match m.current with
  | some p => { m with events := m.events ++ [PromptEvent.disposeEvt p] }
  | none => m

/-- How a run of `stepThrough` ends: the returned promise resolves
(`completed`), it rejects with a step's non-signal error (`failed`), or the
allotted fuel was not enough to reach the end of the loop (`outOfFuel`). -/
inductive Outcome (ε : Type) where
  | completed
  | failed : ε → Outcome ε
  | outOfFuel
  deriving DecidableEq, Repr

/-- Outcome, final shared state and final instance state of a run. -/
structure RunResult (ι σ ε : Type) where
  outcome : Outcome ε
  state : σ
  msi : MSI ι
  deriving DecidableEq, Repr

/-- The `while (step)` loop of `stepThrough` (lines 218–244), with fuel.
When `step` is empty the loop exits and the active prompt, if any, is
disposed; a non-signal error exits `stepThrough` immediately by rethrowing,
without the final disposal (there is no `finally` around the loop). -/
def runLoop {ι σ ε : Type} (env : Env ι σ ε) :
    Nat → Option ι → σ → MSI ι → RunResult ι σ ε
  | _, none, s, m => ⟨Outcome.completed, s, finishNormal m⟩
  | 0, some _, s, m => ⟨Outcome.outOfFuel, s, m⟩
  | fuel + 1, some i, s, m =>
      let r := iterate env i s m
      match r.thrown with
      | some e => ⟨Outcome.failed e, r.state, r.msi⟩
      | none => runLoop env fuel r.next r.state r.msi

/-- Entry point `MultiStepInput.run(start, state)`, which just calls
`this.stepThrough(start, state)` on the given instance state. -/
def run {ι σ ε : Type} (env : Env ι σ ε) (fuel : Nat) (start : ι) (s : σ)
    (m : MSI ι) : RunResult ι σ ε :=
  runLoop env fuel (some start) s m

/-- Well-formedness of the instance state: every disposed prompt was already
created (its number is below the fresh counter), and the active prompt, if
any, was created and has not been disposed. Holds for a fresh instance and is
preserved by the runner. -/
def WF {ι : Type} (m : MSI ι) : Prop :=
  (∀ p, PromptEvent.disposeEvt p ∈ m.events → p < m.nextPromptId) ∧
  (∀ p, m.current = some p →
    p < m.nextPromptId ∧ PromptEvent.disposeEvt p ∉ m.events)

/-! ## Concrete step chains used in the scenarios -/

/-- The step identities of the `[A → B → C]` scenario. -/
inductive DemoStep where
  | A
  | B
  | C
  deriving DecidableEq, Repr

/-- The `[A → B → C]` chain in which `B` raises `Back`: the shared state
counts how many invocations have happened; `A` returns `B` on its first
invocation and terminates (returns `void`) when re-entered; `B` raises the
`back` signal; `C` would simply terminate, but is never reached. -/
def demoEnv : Env DemoStep Nat Unit := fun i n =>
  match i with
  | DemoStep.A =>
      if n = 0 then ⟨0, n + 1, StepRet.ret (some DemoStep.B)⟩
      else ⟨0, n + 1, StepRet.ret none⟩
  | DemoStep.B => ⟨0, n + 1, StepRet.raise Signal.back⟩
  | DemoStep.C => ⟨0, n + 1, StepRet.ret none⟩

/-- Running the `[A → B → C]` scenario from a fresh instance. -/
def demoRun : RunResult DemoStep Nat Unit :=
  run demoEnv 10 DemoStep.A 0 MSI.new

/-- A single-step chain whose only step shows one prompt and then throws a
non-signal error. -/
def failEnv : Env Unit Nat Unit := fun _ n => ⟨1, n + 1, StepRet.fail ()⟩

/-- Running the failing chain from a fresh instance. -/
def failRun : RunResult Unit Nat Unit :=
  run failEnv 5 () 0 MSI.new

/-- A single-step chain whose only step shows one prompt and then raises
`cancel`. -/
def cancelEnv : Env Unit Nat Unit := fun _ n => ⟨1, n + 1, StepRet.raise Signal.cancel⟩

/-- Running the cancelling chain from a fresh instance. -/
def cancelRun : RunResult Unit Nat Unit :=
  run cancelEnv 5 () 0 MSI.new

/-- A single-step chain whose only step raises `back` immediately (first step
of the run, empty prior stack). -/
def backFirstEnv : Env Unit Nat Unit := fun _ n => ⟨0, n + 1, StepRet.raise Signal.back⟩

/-- Running the back-from-first-step chain from a fresh instance. -/
def backFirstRun : RunResult Unit Nat Unit :=
  run backFirstEnv 5 () 0 MSI.new

/-! ## `showQuickPick`: buttons and the button handler -/

/-- Buttons of a quick-pick prompt: the built-in `QuickInputButtons.Back` or
any caller-supplied button (identified by a number). -/
inductive QPButton where
  | backBtn
  | other : Nat → QPButton
  deriving DecidableEq, Repr

/-- Line 119 of `showQuickPick`:
`input.buttons = [...(this.steps.length > 1 ? [QuickInputButtons.Back] : []), ...(buttons || [])]`. -/
def quickPickButtons (stepsLen : Nat) (extra : List QPButton) : List QPButton :=
  (if stepsLen > 1 then [QPButton.backBtn] else []) ++ extra

/-- What a button press does to the quick-pick promise. -/
inductive PromptResolution (τ : Type) where
  | resolved : τ → PromptResolution τ
  | rejectedBack
  deriving DecidableEq, Repr

/-- Lines 121–128 of `showQuickPick`: the `onDidTriggerButton` handler
rejects the promise with `InputFlowAction.back` when the pressed button is
`QuickInputButtons.Back`, and resolves with the button itself otherwise. -/
def onTriggerButton (item : QPButton) : PromptResolution QPButton :=
  if item = QPButton.backBtn then PromptResolution.rejectedBack
  else PromptResolution.resolved item

/-! ## `showInputBox`: the per-keystroke validation race -/

/-- State of the validation pipeline of `showInputBox`: `validating` is the
identity of the most recently issued validation promise (promises are
numbered in issue order; number `0` is the initial `validate('')` of
line 175, whose result no handler applies), and `message` is the displayed
`input.validationMessage`. -/
structure ValState where
  validating : Nat
  message : Option String
  deriving DecidableEq, Repr

/-- The state of the validation pipeline right after the prompt is created:
`validating` holds the initial `validate('')` promise and no validation
message is displayed. -/
def valInit : ValState := ⟨0, none⟩

/-- Scheduler events of the `onDidChangeValue` handler (lines 195–202):
`issue id` is the synchronous prefix of one handler invocation —
`const current = validate(text); validating = current;` — for a keystroke
whose validation promise is number `id`; `applyRes id` is the continuation
after `await current` — apply the resolved message to
`input.validationMessage` only if `current === validating` still holds. -/
inductive VEvent where
  | issue : Nat → VEvent
  | applyRes : Nat → VEvent
  deriving DecidableEq, Repr

/-- One scheduler event of the validation pipeline. `res id` is the message
the validation promise number `id` resolves with. -/
def vStep (res : Nat → Option String) (st : ValState) : VEvent → ValState
  | VEvent.issue id => { st with validating := id }
  | VEvent.applyRes id =>
      if id = st.validating then { st with message := res id } else st

/-- Run the validation pipeline over a sequence of scheduler events. -/
def vRun (res : Nat → Option String) (st : ValState) (evs : List VEvent) :
    ValState :=
  evs.foldl (vStep res) st

/-! ## `showInputBox`: the accept handler -/

/-- State of the input box visible to the accept handler: the text in the
box, the `enabled` and `busy` flags, and the resolution of the
`showInputBox` promise (`none` while still pending; a promise resolves at
most once, later `resolve` calls are no-ops). -/
structure BoxState where
  value : String
  enabled : Bool
  busy : Bool
  resolved : Option String
  deriving DecidableEq, Repr

/-- JavaScript truthiness of the `string | undefined` returned by the
validator: `undefined` and the empty string are falsy. -/
def truthy : Option String → Bool
  | none => false
  | some s => s ≠ ""

/-- The synchronous prefix of the `onDidAccept` handler (lines 186–188):
capture `const inputValue = input.value`, then `input.enabled = false;
input.busy = true`. Returns the captured value and the updated box. -/
def acceptBegin (b : BoxState) : String × BoxState :=
  (b.value, { b with enabled := false, busy := true })

/-- An edit of the box text happening while the accept-time validation is in
flight (the user can keep typing; `onDidChangeValue` does not change
`input.value`, the widget does). -/
def applyEdit (midEdit : Option String) (b : BoxState) : BoxState :=
  match midEdit with
  | some v => { b with value := v }
  | none => b

/-- The continuation of the `onDidAccept` handler after
`await validate(inputValue)` (lines 189–193): when the validation message is
falsy, resolve the promise with the captured `inputValue` (a no-op if the
promise is already resolved); then `input.enabled = true;
input.busy = false`. -/
def acceptFinish (validationMsg : Option String) (inputValue : String)
    (b : BoxState) : BoxState :=
  let b1 :=
    if truthy validationMsg then b
    else
      match b.resolved with
      | some _ => b
      | none => { b with resolved := some inputValue }
  { b1 with enabled := true, busy := false }

/-- One full `onDidAccept` handler run (lines 185–194): capture the value and
disable/mark busy, let the box text possibly change while the validator runs,
then finish with the validator's result for the captured value. -/
def onDidAccept (validate : String → Option String) (midEdit : Option String)
    (b : BoxState) : BoxState :=
  let (inputValue, b1) := acceptBegin b
  acceptFinish (validate inputValue) inputValue (applyEdit midEdit b1)

/-- Results of the validation promises in the race scenario of the spec:
promise 1 is the `validate("a")` call and resolves with a message, promise 2
is the `validate("ab")` call and resolves with no message. -/
def raceValidator : Nat → Option String
  | 1 => some "Value a is not allowed"
  | _ => none

/-! ## Basic lemmas about the runner state -/

theorem showOne_steps {ι : Type} (m : MSI ι) : (showOne m).steps = m.steps := rfl

theorem showOne_trace {ι : Type} (m : MSI ι) : (showOne m).trace = m.trace := rfl

theorem showN_steps {ι : Type} (n : Nat) (m : MSI ι) :
    (showN n m).steps = m.steps := by
  induction n generalizing m with
  | zero => rfl
  | succ n ih => rw [showN, ih, showOne_steps]

theorem showN_trace {ι : Type} (n : Nat) (m : MSI ι) :
    (showN n m).trace = m.trace := by
  induction n generalizing m with
  | zero => rfl
  | succ n ih => rw [showN, ih, showOne_trace]

theorem finishNormal_current {ι : Type} (m : MSI ι) :
    (finishNormal m).current = m.current := by
  unfold finishNormal
  cases hcur : m.current with
  | none => exact hcur
  | some p => rfl

theorem finishNormal_trace {ι : Type} (m : MSI ι) :
    (finishNormal m).trace = m.trace := by
  unfold finishNormal
  cases hcur : m.current <;> rfl

theorem finishNormal_steps {ι : Type} (m : MSI ι) :
    (finishNormal m).steps = m.steps := by
  unfold finishNormal
  cases hcur : m.current <;> rfl

theorem WF_new {ι : Type} : WF (MSI.new : MSI ι) := by
  constructor
  · intro p hp
    simp [MSI.new] at hp
  · intro p hp
    simp [MSI.new] at hp

theorem WF_update {ι : Type} {m : MSI ι} (h : WF m) (l : List PromptEvent)
    (hl : ∀ p, PromptEvent.disposeEvt p ∉ l) (st tr : List ι) :
    WF { m with steps := st, trace := tr, events := m.events ++ l } := by
  obtain ⟨h1, h2⟩ := h
  constructor
  · intro p hp
    rcases List.mem_append.mp hp with hp | hp
    · exact h1 p hp
    · exact absurd hp (hl p)
  · intro p hp
    refine ⟨(h2 p hp).1, fun hmem => ?_⟩
    rcases List.mem_append.mp hmem with hmem | hmem
    · exact (h2 p hp).2 hmem
    · exact hl p hmem

theorem WF_pushBusy {ι : Type} {m : MSI ι} (h : WF m) (i : ι) :
    WF (pushBusy i m) := by
  unfold pushBusy
  apply WF_update h
  intro p
  cases m.current <;> simp

theorem WF_showOne {ι : Type} {m : MSI ι} (h : WF m) : WF (showOne m) := by
  obtain ⟨h1, h2⟩ := h
  constructor
  · intro p hp
    simp only [showOne, List.mem_append] at hp
    rcases hp with hp | hp
    · rcases hp with hp | hp
      · exact Nat.lt_succ_of_lt (h1 p hp)
      · cases hcur : m.current with
        | none => rw [hcur] at hp; simp at hp
        | some q =>
            rw [hcur] at hp
            simp only [List.mem_singleton, PromptEvent.disposeEvt.injEq] at hp
            subst hp
            exact Nat.lt_succ_of_lt (h2 p hcur).1
    · simp at hp
  · intro p hp
    simp only [showOne, Option.some.injEq] at hp
    subst hp
    refine ⟨Nat.lt_succ_self _, fun hmem => ?_⟩
    simp only [showOne, List.mem_append] at hmem
    rcases hmem with hmem | hmem
    · rcases hmem with hmem | hmem
      · exact Nat.lt_irrefl _ (h1 _ hmem)
      · cases hcur : m.current with
        | none => rw [hcur] at hmem; simp at hmem
        | some q =>
            rw [hcur] at hmem
            simp only [List.mem_singleton, PromptEvent.disposeEvt.injEq] at hmem
            subst hmem
            exact Nat.lt_irrefl _ (h2 _ hcur).1
    · simp at hmem

theorem WF_showN {ι : Type} (n : Nat) {m : MSI ι} (h : WF m) :
    WF (showN n m) := by
  induction n generalizing m with
  | zero => exact h
  | succ n ih => rw [showN]; exact ih (WF_showOne h)

theorem pushBusy_steps {ι : Type} (i : ι) (m : MSI ι) :
    (pushBusy i m).steps = i :: m.steps := rfl

theorem pushBusy_trace {ι : Type} (i : ι) (m : MSI ι) :
    (pushBusy i m).trace = m.trace ++ [i] := rfl

theorem pushBusy_current {ι : Type} (i : ι) (m : MSI ι) :
    (pushBusy i m).current = m.current := rfl

/-! ## Characterisation of one loop iteration by the step's outcome -/

theorem iterate_of_ret {ι σ ε : Type} {env : Env ι σ ε} {i : ι} {s : σ}
    (m : MSI ι) {next : Option ι} (h : (env i s).ret = StepRet.ret next) :
    iterate env i s m =
      ⟨next, (env i s).state, showN (env i s).prompts (pushBusy i m), none⟩ := by
  simp only [iterate, h]

theorem iterate_of_back {ι σ ε : Type} {env : Env ι σ ε} {i : ι} {s : σ}
    (m : MSI ι) (h : (env i s).ret = StepRet.raise Signal.back) :
    iterate env i s m =
      ⟨m.steps.head?, (env i s).state,
        { showN (env i s).prompts (pushBusy i m) with steps := m.steps.tail },
        none⟩ := by
  simp only [iterate, h, showN_steps, pushBusy_steps, List.tail_cons, List.head?_cons]

theorem iterate_of_resume {ι σ ε : Type} {env : Env ι σ ε} {i : ι} {s : σ}
    (m : MSI ι) (h : (env i s).ret = StepRet.raise Signal.resume) :
    iterate env i s m =
      ⟨some i, (env i s).state,
        { showN (env i s).prompts (pushBusy i m) with steps := m.steps },
        none⟩ := by
  simp only [iterate, h, showN_steps, pushBusy_steps, List.tail_cons, List.head?_cons]

theorem iterate_of_cancel {ι σ ε : Type} {env : Env ι σ ε} {i : ι} {s : σ}
    (m : MSI ι) (h : (env i s).ret = StepRet.raise Signal.cancel) :
    iterate env i s m =
      ⟨none, (env i s).state, showN (env i s).prompts (pushBusy i m), none⟩ := by
  simp only [iterate, h]

theorem iterate_of_fail {ι σ ε : Type} {env : Env ι σ ε} {i : ι} {s : σ}
    (m : MSI ι) {e : ε} (h : (env i s).ret = StepRet.fail e) :
    iterate env i s m =
      ⟨none, (env i s).state, showN (env i s).prompts (pushBusy i m), some e⟩ := by
  simp only [iterate, h]

theorem runLoop_none {ι σ ε : Type} (env : Env ι σ ε) (fuel : Nat) (s : σ)
    (m : MSI ι) :
    runLoop env fuel none s m = ⟨Outcome.completed, s, finishNormal m⟩ := by
  cases fuel <;> rfl

theorem runLoop_succ {ι σ ε : Type} (env : Env ι σ ε) (fuel : Nat) (i : ι)
    (s : σ) (m : MSI ι) :
    runLoop env (fuel + 1) (some i) s m =
      match (iterate env i s m).thrown with
      | some e =>
          ⟨Outcome.failed e, (iterate env i s m).state, (iterate env i s m).msi⟩
      | none =>
          runLoop env fuel (iterate env i s m).next (iterate env i s m).state
            (iterate env i s m).msi := rfl

theorem finishNormal_events_of_current {ι : Type} {m : MSI ι} {p : Nat}
    (h : m.current = some p) :
    (finishNormal m).events = m.events ++ [PromptEvent.disposeEvt p] := by
  unfold finishNormal
  rw [h]

/-! ## Lemmas about the validation pipeline -/

theorem vRun_cons (res : Nat → Option String) (st : ValState) (e : VEvent)
    (evs : List VEvent) :
    vRun res st (e :: evs) = vRun res (vStep res st e) evs := rfl

theorem vRun_no_issue {res : Nat → Option String} {J : Nat} :
    ∀ (evs : List VEvent) (st : ValState),
      (∀ id, VEvent.issue id ∉ evs) → st.validating = J →
      (vRun res st evs).validating = J ∧
      (VEvent.applyRes J ∈ evs → (vRun res st evs).message = res J) ∧
      (VEvent.applyRes J ∉ evs → (vRun res st evs).message = st.message) := by
  intro evs
  induction evs with
  | nil =>
      intro st _ hv
      exact ⟨hv, by simp, fun _ => rfl⟩
  | cons e rest ih =>
      intro st hno hv
      have hno2 : ∀ id, VEvent.issue id ∉ rest := fun id h =>
        hno id (List.mem_cons_of_mem _ h)
      cases e with
      | issue id => exact absurd (List.mem_cons_self _ _) (hno id)
      | applyRes id =>
          rw [vRun_cons]
          by_cases hid : id = J
          · subst hid
            have hst : vStep res st (VEvent.applyRes id) =
                { st with message := res id } := by
              simp [vStep, hv]
            rw [hst]
            have h3 := ih { st with message := res id } hno2 hv
            refine ⟨h3.1, fun _ => ?_, fun hnm => ?_⟩
            · by_cases hmem : VEvent.applyRes id ∈ rest
              · exact h3.2.1 hmem
              · exact h3.2.2 hmem
            · exact absurd (List.mem_cons_self _ _) hnm
          · have hst : vStep res st (VEvent.applyRes id) = st := by
              simp [vStep, hv, hid]
            rw [hst]
            have h3 := ih st hno2 hv
            refine ⟨h3.1, fun hmem => ?_, fun hnm => ?_⟩
            · rcases List.mem_cons.mp hmem with hmem | hmem
              · cases hmem
                exact absurd rfl hid
              · exact h3.2.1 hmem
            · exact h3.2.2 fun hmem => hnm (List.mem_cons_of_mem _ hmem)

/-! ## The claims -/

/-- C1: when a step raises the Back signal, the runner pops the stack twice —
first discarding the step that raised Back (which had just been pushed), then
obtaining the prior step — and makes that prior step the current step; in
particular, for the chain `[A → B → C]` where `B` raises Back, the invocation
trace is `A, B, A`, `C` is never invoked, and the stack afterwards is
exactly `[A]`. -/
theorem C1_back_pops_twice_and_reenters_prior (ι σ ε : Type) (env : Env ι σ ε)
    (i : ι) (s : σ) (m : MSI ι)
    (hb : (env i s).ret = StepRet.raise Signal.back) :
    ((iterate env i s m).next = m.steps.head? ∧
      (iterate env i s m).msi.steps = m.steps.tail ∧
      (iterate env i s m).thrown = none) ∧
    (demoRun.outcome = Outcome.completed ∧
      demoRun.msi.trace = [DemoStep.A, DemoStep.B, DemoStep.A] ∧
      DemoStep.C ∉ demoRun.msi.trace ∧
      demoRun.msi.steps = [DemoStep.A]) := by
  constructor
  · rw [iterate_of_back m hb]
    exact ⟨rfl, rfl, rfl⟩
  · refine ⟨by decide, by decide, by decide, by decide⟩

/-- Witness for C1: in the `[A → B → C]` chain, when `B` raises Back with the
stack `[B, A]` (so `[A]` before `B` was pushed), the next step to run is `A`
and the remaining stack is empty. -/
theorem C1_back_pops_twice_and_reenters_prior_witness :
    (iterate demoEnv DemoStep.B 1 ⟨[DemoStep.A], none, 0, [], [DemoStep.A]⟩).next =
      some DemoStep.A ∧
    (iterate demoEnv DemoStep.B 1 ⟨[DemoStep.A], none, 0, [], [DemoStep.A]⟩).msi.steps =
      [] := by
  have h := C1_back_pops_twice_and_reenters_prior DemoStep Nat Unit demoEnv
    DemoStep.B 1 ⟨[DemoStep.A], none, 0, [], [DemoStep.A]⟩ rfl
  exact ⟨h.1.1, h.1.2.1⟩

/-- C2 counterexample: a step that shows a prompt and then throws a
non-signal error makes `run` reject while the active prompt (prompt 0) has
not been disposed — contradicting the claim that the active prompt is
disposed before the failure propagates out of `run`. -/
theorem C2_counterexample_failure_leaves_prompt_undisposed :
    failRun.outcome = Outcome.failed () ∧
    failRun.msi.current = some 0 ∧
    PromptEvent.disposeEvt 0 ∉ failRun.msi.events := by
  refine ⟨by decide, by decide, by decide⟩

/-- C2 (amended): a failure raised by a step that is not one of the three
control signals is surfaced immediately to the caller of `run` without
retrying the step (the failing step is the only new invocation), but the
active prompt, if one exists, is NOT disposed before the failure propagates
out of `run` (the final disposal only happens on normal loop exit). -/
theorem C2_amended_failure_propagates_without_disposal (ι σ ε : Type)
    (env : Env ι σ ε) (i : ι) (s : σ) (m : MSI ι) (fuel : Nat) (e : ε)
    (hwf : WF m) (hf : (env i s).ret = StepRet.fail e) :
    (runLoop env (fuel + 1) (some i) s m).outcome = Outcome.failed e ∧
    (runLoop env (fuel + 1) (some i) s m).msi.trace = m.trace ++ [i] ∧
    ∀ p, (runLoop env (fuel + 1) (some i) s m).msi.current = some p →
      PromptEvent.disposeEvt p ∉ (runLoop env (fuel + 1) (some i) s m).msi.events := by
  have key : runLoop env (fuel + 1) (some i) s m =
      ⟨Outcome.failed e, (env i s).state, showN (env i s).prompts (pushBusy i m)⟩ := by
    rw [runLoop_succ, iterate_of_fail m hf]
  rw [key]
  refine ⟨rfl, ?_, ?_⟩
  · rw [showN_trace, pushBusy_trace]
  · intro p hp
    have hw : WF (showN (env i s).prompts (pushBusy i m)) :=
      WF_showN _ (WF_pushBusy hwf i)
    exact (hw.2 p hp).2

/-- Witness for C2 (amended): the single failing step of `failEnv` makes the
run fail with the prompt it showed still active and undisposed. -/
theorem C2_amended_failure_propagates_without_disposal_witness :
    (runLoop failEnv 5 (some ()) 0 MSI.new).outcome = Outcome.failed () ∧
    PromptEvent.disposeEvt 0 ∉ (runLoop failEnv 5 (some ()) 0 MSI.new).msi.events := by
  have h := C2_amended_failure_propagates_without_disposal Unit Nat Unit
    failEnv () 0 MSI.new 4 () WF_new rfl
  exact ⟨h.1, h.2.2 0 (by decide)⟩

/-- C3: a step raising the Cancel signal terminates the run with no further
step invocations (the trace only grows by the cancelling step), the run
completes normally (the promise resolves rather than throws), and the active
prompt, if any, is disposed exactly once. -/
theorem C3_cancel_terminates_and_disposes_once (ι σ ε : Type)
    (env : Env ι σ ε) (i : ι) (s : σ) (m : MSI ι) (fuel : Nat)
    (hwf : WF m) (hc : (env i s).ret = StepRet.raise Signal.cancel) :
    (runLoop env (fuel + 1) (some i) s m).outcome = Outcome.completed ∧
    (runLoop env (fuel + 1) (some i) s m).msi.trace = m.trace ++ [i] ∧
    ∀ p, (runLoop env (fuel + 1) (some i) s m).msi.current = some p →
      ((runLoop env (fuel + 1) (some i) s m).msi.events).count
        (PromptEvent.disposeEvt p) = 1 := by
  have key : runLoop env (fuel + 1) (some i) s m =
      ⟨Outcome.completed, (env i s).state,
        finishNormal (showN (env i s).prompts (pushBusy i m))⟩ := by
    rw [runLoop_succ, iterate_of_cancel m hc]
    exact runLoop_none env fuel _ _
  have hw : WF (showN (env i s).prompts (pushBusy i m)) :=
    WF_showN _ (WF_pushBusy hwf i)
  rw [key]
  refine ⟨rfl, ?_, ?_⟩
  · rw [finishNormal_trace, showN_trace, pushBusy_trace]
  · intro p hp
    rw [finishNormal_current] at hp
    have hnot : PromptEvent.disposeEvt p ∉ (showN (env i s).prompts (pushBusy i m)).events :=
      (hw.2 p hp).2
    rw [finishNormal_events_of_current hp, List.count_append,
      List.count_eq_zero.mpr hnot]
    simp

/-- Witness for C3: the single cancelling step of `cancelEnv` completes the
run and its prompt (prompt 0) is disposed exactly once. -/
theorem C3_cancel_terminates_and_disposes_once_witness :
    (runLoop cancelEnv 5 (some ()) 0 MSI.new).outcome = Outcome.completed ∧
    ((runLoop cancelEnv 5 (some ()) 0 MSI.new).msi.events).count
      (PromptEvent.disposeEvt 0) = 1 := by
  have h := C3_cancel_terminates_and_disposes_once Unit Nat Unit cancelEnv
    () 0 MSI.new 4 WF_new rfl
  exact ⟨h.1, h.2.2 0 (by decide)⟩

/-- C4: per-keystroke validation is last-issued-wins: after the most recently
issued validation call `J`, once `J`'s result is applied the displayed
message is `J`'s result, and any stale in-flight validation resolving later
is discarded; concretely, for a validator with a message for `"a"` (promise 1)
and none for `"ab"` (promise 2), typing `"a"` then `"ab"` with the `"a"`
validation resolving last leaves the displayed message empty, never the
stale message. -/
theorem C4_validation_last_issued_wins (res : Nat → Option String)
    (st : ValState) (J : Nat) (evs : List VEvent)
    (hno : ∀ id, VEvent.issue id ∉ evs) (happ : VEvent.applyRes J ∈ evs) :
    (vRun res (vStep res st (VEvent.issue J)) evs).message = res J ∧
    (vRun raceValidator valInit
      [VEvent.issue 1, VEvent.issue 2, VEvent.applyRes 2,
        VEvent.applyRes 1]).message = none ∧
    raceValidator 1 = some "Value a is not allowed" := by
  refine ⟨?_, rfl, rfl⟩
  exact (vRun_no_issue evs (vStep res st (VEvent.issue J)) hno rfl).2.1 happ

/-- Witness for C4: in the race scenario, the state after issuing promise 2
and then applying the two resolutions ends with promise 2's empty result. -/
theorem C4_validation_last_issued_wins_witness :
    (vRun raceValidator (vStep raceValidator valInit (VEvent.issue 2))
      [VEvent.applyRes 2, VEvent.applyRes 1]).message = none := by
  have h := C4_validation_last_issued_wins raceValidator valInit 2
    [VEvent.applyRes 2, VEvent.applyRes 1]
    (by intro id hmem; simp at hmem) (by simp)
  exact h.1

/-- C5 counterexample: the `[A → B → C]` run completes normally, yet the step
stack still contains an entry (`A`) after the run has terminated — the stack
is not destroyed/cleared at run termination. -/
theorem C5_counterexample_stack_survives_run :
    demoRun.outcome = Outcome.completed ∧ demoRun.msi.steps ≠ [] := by
  refine ⟨by decide, by decide⟩

/-- C5 (amended): the step stack is a field of the `MultiStepInput` instance,
created empty at instance construction (not at run start), and it is not
cleared when the run terminates: the loop-exit disposal leaves the stack
untouched, so entries pushed and not popped (here `A`) survive the run's
termination; the stack is released only with the instance itself. -/
theorem C5_amended_stack_is_instance_field_not_cleared :
    (∀ (ι : Type) (m : MSI ι), (finishNormal m).steps = m.steps) ∧
    (MSI.new : MSI Unit).steps = [] ∧
    (demoRun.outcome = Outcome.completed ∧ demoRun.msi.steps = [DemoStep.A]) := by
  refine ⟨fun ι m => finishNormal_steps m, rfl, by decide, by decide⟩

/-- C6: if the first step of a run (entered with an empty prior stack) raises
the Back signal, the run terminates normally: there is no prior step to
re-enter (`step` becomes empty), no further step is invoked, and the stack is
empty. -/
theorem C6_back_from_first_step_terminates (ι σ ε : Type) (env : Env ι σ ε)
    (i : ι) (s : σ) (m : MSI ι) (fuel : Nat)
    (hempty : m.steps = []) (hb : (env i s).ret = StepRet.raise Signal.back) :
    (runLoop env (fuel + 1) (some i) s m).outcome = Outcome.completed ∧
    (runLoop env (fuel + 1) (some i) s m).msi.trace = m.trace ++ [i] ∧
    (runLoop env (fuel + 1) (some i) s m).msi.steps = [] := by
  have key : runLoop env (fuel + 1) (some i) s m =
      ⟨Outcome.completed, (env i s).state,
        finishNormal
          { showN (env i s).prompts (pushBusy i m) with steps := m.steps.tail }⟩ := by
    rw [runLoop_succ, iterate_of_back m hb, hempty]
    exact runLoop_none env fuel _ _
  rw [key]
  refine ⟨rfl, ?_, ?_⟩
  · rw [finishNormal_trace]
    show (showN (env i s).prompts (pushBusy i m)).trace = m.trace ++ [i]
    rw [showN_trace, pushBusy_trace]
  · rw [finishNormal_steps]
    show m.steps.tail = []
    rw [hempty]
    rfl

/-- Witness for C6: the chain whose first step raises Back immediately
completes with an empty stack. -/
theorem C6_back_from_first_step_terminates_witness :
    (runLoop backFirstEnv 5 (some ()) 0 MSI.new).outcome = Outcome.completed ∧
    (runLoop backFirstEnv 5 (some ()) 0 MSI.new).msi.steps = [] := by
  have h := C6_back_from_first_step_terminates Unit Nat Unit backFirstEnv
    () 0 MSI.new 4 rfl rfl
  exact ⟨h.1, h.2.2⟩

/-- C7: a quick-pick prompt includes the Back action button exactly when more
than one step is on the step stack at prompt-creation time (assuming the
caller did not pass the Back button among the extra buttons), and pressing
Back rejects the prompt's promise with the Back signal instead of resolving
it, while any other button resolves the promise with that button. -/
theorem C7_back_button_iff_multiple_steps (stepsLen : Nat)
    (extra : List QPButton) (hx : QPButton.backBtn ∉ extra) :
    (QPButton.backBtn ∈ quickPickButtons stepsLen extra ↔ stepsLen > 1) ∧
    onTriggerButton QPButton.backBtn = PromptResolution.rejectedBack ∧
    ∀ b, b ≠ QPButton.backBtn →
      onTriggerButton b = PromptResolution.resolved b := by
  refine ⟨?_, rfl, ?_⟩
  · unfold quickPickButtons
    by_cases h : stepsLen > 1
    · simp [h]
    · simp [h, hx]
  · intro b hb
    simp [onTriggerButton, hb]

/-- Witness for C7: with two steps on the stack the Back button is included,
and pressing it raises the Back signal. -/
theorem C7_back_button_iff_multiple_steps_witness :
    (QPButton.backBtn ∈ quickPickButtons 2 [QPButton.other 7] ↔ 2 > 1) ∧
    onTriggerButton QPButton.backBtn = PromptResolution.rejectedBack := by
  have h := C7_back_button_iff_multiple_steps 2 [QPButton.other 7] (by decide)
  exact ⟨h.1, h.2.1⟩

/-- C8: when `showQuickPick` or `showInputBox` creates a new prompt while a
previous prompt is active, the previous prompt is disposed before the new
prompt is shown (the event log records the disposal strictly before the
show), and the new prompt becomes the single active prompt; with no previous
prompt, only the show happens. -/
theorem C8_previous_prompt_disposed_before_new_shown (ι : Type) (m : MSI ι) :
    (∀ p, m.current = some p →
      (showOne m).events = m.events ++
        [PromptEvent.disposeEvt p, PromptEvent.showEvt m.nextPromptId]) ∧
    (m.current = none →
      (showOne m).events = m.events ++ [PromptEvent.showEvt m.nextPromptId]) ∧
    (showOne m).current = some m.nextPromptId := by
  refine ⟨?_, ?_, rfl⟩
  · intro p hp
    simp [showOne, hp]
  · intro hp
    simp [showOne, hp]

/-- Witness for C8: replacing active prompt 5 disposes it and then shows the
fresh prompt 6, which becomes the active prompt. -/
theorem C8_previous_prompt_disposed_before_new_shown_witness :
    (showOne (⟨[], some 5, 6, [PromptEvent.showEvt 5], []⟩ : MSI Unit)).events =
      [PromptEvent.showEvt 5] ++
        [PromptEvent.disposeEvt 5, PromptEvent.showEvt 6] ∧
    (showOne (⟨[], some 5, 6, [PromptEvent.showEvt 5], []⟩ : MSI Unit)).current =
      some 6 := by
  have h := C8_previous_prompt_disposed_before_new_shown Unit
    ⟨[], some 5, 6, [PromptEvent.showEvt 5], []⟩
  exact ⟨h.1 5 rfl, h.2.2⟩

/-- C9: on submission the input box is disabled and marked busy while the
validator runs; a truthy validation message rejects the submitted value (the
promise stays pending) and the box is re-enabled; an absent message resolves
the promise with the entered text. -/
theorem C9_accept_validation_gates_resolution (validate : String → Option String)
    (midEdit : Option String) (b : BoxState) (hpend : b.resolved = none) :
    ((acceptBegin b).2.enabled = false ∧ (acceptBegin b).2.busy = true) ∧
    (truthy (validate b.value) = true →
      (onDidAccept validate midEdit b).resolved = none ∧
      (onDidAccept validate midEdit b).enabled = true ∧
      (onDidAccept validate midEdit b).busy = false) ∧
    (validate b.value = none →
      (onDidAccept validate midEdit b).resolved = some b.value) := by
  have hres : (applyEdit midEdit { b with enabled := false, busy := true }).resolved =
      none := by
    cases midEdit <;> simpa [applyEdit] using hpend
  refine ⟨⟨rfl, rfl⟩, ?_, ?_⟩
  · intro ht
    refine ⟨?_, rfl, rfl⟩
    simp [onDidAccept, acceptBegin, acceptFinish, ht, hres]
  · intro hv
    simp [onDidAccept, acceptBegin, acceptFinish, hv, truthy, hres]

/-- Witness for C9: accepting an empty value with a validator requiring
non-empty text leaves the promise pending; accepting a valid value resolves
with it. -/
theorem C9_accept_validation_gates_resolution_witness :
    (onDidAccept (fun s => if s = "" then some "Enter a value" else none)
      none ⟨"", true, false, none⟩).resolved = none ∧
    (onDidAccept (fun s => if s = "" then some "Enter a value" else none)
      none ⟨"ok", true, false, none⟩).resolved = some "ok" := by
  have h1 := C9_accept_validation_gates_resolution
    (fun s => if s = "" then some "Enter a value" else none) none
    ⟨"", true, false, none⟩ rfl
  have h2 := C9_accept_validation_gates_resolution
    (fun s => if s = "" then some "Enter a value" else none) none
    ⟨"ok", true, false, none⟩ rfl
  exact ⟨(h1.2.1 (by decide)).1, h2.2.2 (by decide)⟩

/-- C10: the value the input box resolves with on successful validation is
the text captured at the moment accept fired — edits made while the
validation is in flight do not change it — and the box is re-enabled and
unmarked busy after the handler, whether the value was accepted or not. -/
theorem C10_accept_resolves_with_captured_value (validate : String → Option String)
    (midEdit : Option String) (b : BoxState) (hpend : b.resolved = none) :
    (validate b.value = none →
      (onDidAccept validate midEdit b).resolved = some b.value) ∧
    (onDidAccept validate midEdit b).enabled = true ∧
    (onDidAccept validate midEdit b).busy = false := by
  have hres : (applyEdit midEdit { b with enabled := false, busy := true }).resolved =
      none := by
    cases midEdit <;> simpa [applyEdit] using hpend
  refine ⟨?_, rfl, rfl⟩
  intro hv
  simp [onDidAccept, acceptBegin, acceptFinish, hv, truthy, hres]

/-- Witness for C10: with the box containing "good" at accept time and the
user typing "bad" during validation, the promise still resolves with "good"
and the box ends re-enabled and not busy. -/
theorem C10_accept_resolves_with_captured_value_witness :
    (onDidAccept (fun s => if s = "bad" then some "Not allowed" else none)
      (some "bad") ⟨"good", true, false, none⟩).resolved = some "good" ∧
    (onDidAccept (fun s => if s = "bad" then some "Not allowed" else none)
      (some "bad") ⟨"good", true, false, none⟩).enabled = true ∧
    (onDidAccept (fun s => if s = "bad" then some "Not allowed" else none)
      (some "bad") ⟨"good", true, false, none⟩).busy = false := by
  have h := C10_accept_resolves_with_captured_value
    (fun s => if s = "bad" then some "Not allowed" else none)
    (some "bad") ⟨"good", true, false, none⟩ rfl
  exact ⟨h.1 (by decide), h.2.1, h.2.2⟩

end MultiStep
